import Mathlib

/-!
Shallow embedding of the Voronoi orchestrator of src/src/voronoi.rs
(meshless_voro). The repository only ships voronoi.rs; the submodules
generator, voronoi_cell, voronoi_face, rtree_nn, util and integrators are
not in src, so their load-bearing pieces are modelled from the spec, and
the per-cell convex-cell construction (ConvexCell::init/build together
with VoronoiCell::from_convex_cell) is abstracted as a parameter
`buildCell : Nat → CellBuildResult` giving, per generator index, the
produced cell, its emitted face buffer and its integrator value buffers.
Machine doubles are modelled as exact rationals: every claim below is
about control flow, lengths, indices or the syntactic shape of formulas,
never about rounding.
-/

namespace MVoro

/-- Exact model of glam::DVec3 with rational components. -/
structure Vec3 where
  x : ℚ
  y : ℚ
  z : ℚ
deriving DecidableEq, Repr

def Vec3.zero : Vec3 := ⟨0, 0, 0⟩

/-- DVec3::Z. -/
def Vec3.unitZ : Vec3 := ⟨0, 0, 1⟩

def Vec3.add (u v : Vec3) : Vec3 := ⟨u.x + v.x, u.y + v.y, u.z + v.z⟩

def Vec3.sub (u v : Vec3) : Vec3 := ⟨u.x - v.x, u.y - v.y, u.z - v.z⟩

def Vec3.smul (s : ℚ) (v : Vec3) : Vec3 := ⟨s * v.x, s * v.y, s * v.z⟩

/-- DVec3::cross. -/
def Vec3.cross (u v : Vec3) : Vec3 :=
  ⟨u.y * v.z - u.z * v.y, u.z * v.x - u.x * v.z, u.x * v.y - u.y * v.x⟩

/-- src/src/voronoi.rs lines 25-30: the Dimensionality enum. -/
inductive Dimensionality where
  | Dimensionality1D
  | Dimensionality2D
  | Dimensionality3D
deriving DecidableEq, Repr

/-- src/src/voronoi.rs lines 32-41: From<usize> for Dimensionality.
The panic on any value outside 1..=3 is modelled as `none`. -/
def Dimensionality.ofUsize (u : Nat) : Option Dimensionality :=
  match u with
  | 1 => some Dimensionality.Dimensionality1D
  | 2 => some Dimensionality.Dimensionality2D
  | 3 => some Dimensionality.Dimensionality3D
  | _ => none

/-- src/src/voronoi.rs lines 43-51: From<Dimensionality> for usize. -/
def Dimensionality.toUsize : Dimensionality → Nat
  | Dimensionality.Dimensionality1D => 1
  | Dimensionality.Dimensionality2D => 2
  | Dimensionality.Dimensionality3D => 3

/-- Modelled from the spec: VoronoiCell (voronoi_cell.rs is not in src).
Spec section 3: immutable generator position and id, volume, centroid,
starting offset into the global cell-face connection table, face count. -/
structure VoronoiCell where
  loc : Vec3
  volume : ℚ
  centroid : Vec3
  face_connections_offset : Nat
  face_count : Nat
deriving DecidableEq, Repr

/-- Modelled from the spec: VoronoiCell::default, the zero-volume value
used for cells masked out of partial construction. -/
def VoronoiCell.default : VoronoiCell :=
  ⟨Vec3.zero, 0, Vec3.zero, 0, 0⟩

/-- Modelled from the spec: VoronoiCell::finalize records the window
[offset, offset+count) of the cell into the flat connection array
(spec section 4.5); called from Voronoi::finalize (voronoi.rs line 347). -/
def VoronoiCell.finalize (c : VoronoiCell) (offset count : Nat) : VoronoiCell :=
  { c with face_connections_offset := offset, face_count := count }

/-- Modelled from the spec: VoronoiFace (voronoi_face.rs is not in src).
Spec section 3: area, centroid, outward normal, left generator id,
optional right generator id, optional periodic shift. -/
structure VoronoiFace where
  area : ℚ
  centroid : Vec3
  normal : Vec3
  left : Nat
  right : Option Nat
  shift : Option Vec3
deriving DecidableEq, Repr

/-- Modelled from the spec: VoronoiFace::has_valid_dimensionality
(voronoi_face.rs is not in src). Spec section 8 and glossary: in 2D mode a
valid face has a normal with vanishing z component, in 1D mode the normal
must be along the x axis, in 3D mode every face is valid. -/
def has_valid_dimensionality (dim : Dimensionality) (f : VoronoiFace) : Bool :=
  match dim with
  | Dimensionality.Dimensionality1D => decide (f.normal.y = 0) && decide (f.normal.z = 0)
  | Dimensionality.Dimensionality2D => decide (f.normal.z = 0)
  | Dimensionality.Dimensionality3D => true

/-- Modelled from the spec: util::retain (util.rs is not in src). Keeps
exactly the elements whose mask entry is true, as used on the face list
at voronoi.rs line 283. -/
def retain {α : Type} (xs : List α) (mask : List Bool) : List α :=
  ((xs.zip mask).filter fun p => p.2).map fun p => p.1

/-- The outcome of constructing one cell (voronoi.rs lines 197-214):
the VoronoiCell plus the face buffer and the two per-cell integrator
value buffers the construction appended to. The geometric construction
itself lives in the missing voronoi_cell.rs and is abstracted. -/
structure CellBuildResult where
  cell : VoronoiCell
  faces : List VoronoiFace
  vectorFaceIntegrals : List Vec3
  scalarFaceIntegrals : List ℚ

/-- The buffers of a cell that was masked out (voronoi.rs line 216):
default cell, nothing appended. -/
def defaultCellBuildResult : CellBuildResult :=
  ⟨VoronoiCell.default, [], [], []⟩

/-- The two fatal failure modes of the build entry points: the panic of
From<usize> for Dimensionality (line 38) and the out-of-bounds mask
index panic in maybe_build_cell (line 196). -/
inductive BuildError where
  | invalidDimensionality
  | maskIndexOutOfBounds
deriving DecidableEq, Repr

/-- voronoi.rs lines 177-218, maybe_build_cell: if there is no mask, or
the mask entry at idx is true, build the cell; if the entry is false,
return the default cell; indexing past the end of the mask panics. -/
def maybe_build_cell (buildCell : Nat → CellBuildResult) (mask : Option (List Bool))
    (idx : Nat) : Except BuildError CellBuildResult :=
  match mask with
  | none => Except.ok (buildCell idx)
  | some m =>
      match m[idx]? with
      | none => Except.error BuildError.maskIndexOutOfBounds
      | some b => if b then Except.ok (buildCell idx) else Except.ok defaultCellBuildResult

/-- voronoi.rs lines 250-275 (sequential variant): map maybe_build_cell
over the generator indices, collecting the cells; the first panic
propagates. -/
def buildCellsList (buildCell : Nat → CellBuildResult) (mask : Option (List Bool)) :
    List Nat → Except BuildError (List CellBuildResult)
  | [] => Except.ok []
  | i :: is =>
    match maybe_build_cell buildCell mask i with
    | Except.error e => Except.error e
    | Except.ok r =>
      match buildCellsList buildCell mask is with
      | Except.error e => Except.error e
      | Except.ok rs => Except.ok (r :: rs)

/-- Helper for everyNth: keep the head when the counter is zero and
restart it at n - 1, else count down. -/
def everyNthAux {α : Type} (n : Nat) : List α → Nat → List α
  | [], _ => []
  | x :: xs, 0 => x :: everyNthAux n xs (n - 1)
  | _ :: xs, k + 1 => everyNthAux n xs k

/-- Iterator::step_by: the elements at positions 0, n, 2n, ... (for n = 0
the Rust iterator is never constructed by the caller). -/
def everyNth {α : Type} (n : Nat) (xs : List α) : List α :=
  everyNthAux n xs 0

/-- The de-interleave at voronoi.rs lines 291-300 and 307-316: for each
integrator index i below n, take every n-th element of the flat buffer
starting at i. -/
def deinterleave {α : Type} (n : Nat) (flat : List α) : List (List α) :=
  (List.range n).map fun i => everyNth n (flat.drop i)

/-- The main Voronoi struct, voronoi.rs lines 54-63. -/
structure Voronoi where
  anchor : Vec3
  width : Vec3
  cells : List VoronoiCell
  faces : List VoronoiFace
  vector_face_integrals : List (List Vec3)
  scalar_face_integrals : List (List ℚ)
  cell_face_connections : List Nat
  dimensionality : Dimensionality

/-- Append v to the list at index c; out-of-range leaves the lists
unchanged (the Rust indexing would panic, which the claims exclude by
requiring face ids below the cell count). -/
def pushIdx (ls : List (List Nat)) (c : Nat) (v : Nat) : List (List Nat) :=
  match ls, c with
  | [], _ => []
  | l :: rest, 0 => (l ++ [v]) :: rest
  | l :: rest, Nat.succ c => l :: pushIdx rest c v

/-- voronoi.rs lines 337-342, body of the adjacency loop for one face:
push the face index onto the list of left, and, when the face has a right
and no shift, also onto the list of right. -/
def addFace (ls : List (List Nat)) (i : Nat) (f : VoronoiFace) : List (List Nat) :=
  let ls1 := pushIdx ls f.left i
  match f.right, f.shift with
  | some r, none => pushIdx ls1 r i
  | _, _ => ls1

/-- voronoi.rs lines 337-342, the enumerate loop over faces. -/
def buildCellFaceLists (ls : List (List Nat)) (i : Nat) : List VoronoiFace → List (List Nat)
  | [] => ls
  | f :: fs => buildCellFaceLists (addFace ls i f) (i + 1) fs

/-- voronoi.rs lines 334-342: per-cell connection lists, starting from
one empty list per cell. -/
def cellFaceLists (n : Nat) (faces : List VoronoiFace) : List (List Nat) :=
  buildCellFaceLists (List.replicate n []) 0 faces

/-- voronoi.rs lines 344-349: assign each cell its offset (the running
sum of the counts so far) and its count. The connection lists always
number exactly the cells, so the fallback branch is unreachable. -/
def finalizeCells : List VoronoiCell → List (List Nat) → Nat → List VoronoiCell
  | [], _, _ => []
  | c :: cs, [], off => c.finalize off 0 :: finalizeCells cs [] off
  | c :: cs, l :: ls, off => c.finalize off l.length :: finalizeCells cs ls (off + l.length)

/-- voronoi.rs lines 333-354, Voronoi::finalize: build the per-cell
connection lists, record each cell window, and flatten. -/
def Voronoi.finalize (v : Voronoi) : Voronoi :=
  let cfc := cellFaceLists v.cells.length v.faces
  { v with
    cells := finalizeCells v.cells cfc 0,
    cell_face_connections := cfc.flatten }

/-- The window [offset, offset+count) of cell c inside the flat
connection array, as recorded by finalize. -/
def Voronoi.window (v : Voronoi) (c : Nat) : List Nat :=
  ((v.cell_face_connections.drop
      ((v.cells.getD c VoronoiCell.default).face_connections_offset)).take
    ((v.cells.getD c VoronoiCell.default).face_count))

/-- voronoi.rs lines 156-165, the anchor half of the normalization of the
unused components of the simulation volume: 1D sets y to -0.5, and 1D or
2D set z to -0.5. -/
def normalizeAnchor (dim : Dimensionality) (anchor : Vec3) : Vec3 :=
  let anchor1 := match dim with
    | Dimensionality.Dimensionality1D => { anchor with y := -(1/2 : ℚ) }
    | _ => anchor
  match dim with
  | Dimensionality.Dimensionality1D => { anchor1 with z := -(1/2 : ℚ) }
  | Dimensionality.Dimensionality2D => { anchor1 with z := -(1/2 : ℚ) }
  | _ => anchor1

/-- voronoi.rs lines 156-165, the width half of the normalization: 1D
sets the y width to 1, and 1D or 2D set the z width to 1. -/
def normalizeWidth (dim : Dimensionality) (width : Vec3) : Vec3 :=
  let width1 := match dim with
    | Dimensionality.Dimensionality1D => { width with y := 1 }
    | _ => width
  match dim with
  | Dimensionality.Dimensionality1D => { width1 with z := 1 }
  | Dimensionality.Dimensionality2D => { width1 with z := 1 }
  | _ => width1

/-- voronoi.rs lines 277-330: flatten the per-cell face buffers, filter
on dimensionality, de-interleave and filter the integrator buffers, and
finalize. -/
def assemble (dim : Dimensionality) (anchor2 width2 : Vec3)
    (results : List CellBuildResult) (nVector nScalar : Nat) : Voronoi :=
  let cells := results.map CellBuildResult.cell
  let facesFlat := (results.map CellBuildResult.faces).flatten
  let face_mask := facesFlat.map fun f => has_valid_dimensionality dim f
  let faces := retain facesFlat face_mask
  let vFlat := (results.map CellBuildResult.vectorFaceIntegrals).flatten
  let vector_face_integrals := retain (deinterleave nVector vFlat) face_mask
  let sFlat := (results.map CellBuildResult.scalarFaceIntegrals).flatten
  let scalar_face_integrals := retain (deinterleave nScalar sFlat) face_mask
  Voronoi.finalize
    ⟨anchor2, width2, cells, faces, vector_face_integrals,
      scalar_face_integrals, [], dim⟩

/-- voronoi.rs lines 138-330, Voronoi::build_internal, with the per-cell
geometric construction abstracted as buildCell. nVector and nScalar are
the lengths of the supplied integrator factory slices. -/
def build_internal (buildCell : Nat → CellBuildResult) (generators : List Vec3)
    (mask : Option (List Bool)) (anchor width : Vec3) (dimensionality : Nat)
    (periodic : Bool) (nVector nScalar : Nat) : Except BuildError Voronoi :=
  match Dimensionality.ofUsize dimensionality with
  | none => Except.error BuildError.invalidDimensionality
  | some dim =>
    match buildCellsList buildCell mask (List.range generators.length) with
    | Except.error e => Except.error e
    | Except.ok results =>
      Except.ok (assemble dim (normalizeAnchor dim anchor) (normalizeWidth dim width)
        results nVector nScalar)

/-- voronoi.rs lines 77-100, Voronoi::build. -/
def build (buildCell : Nat → CellBuildResult) (generators : List Vec3)
    (anchor width : Vec3) (dimensionality : Nat) (periodic : Bool)
    (nVector nScalar : Nat) : Except BuildError Voronoi :=
  build_internal buildCell generators none anchor width dimensionality periodic nVector nScalar

/-- voronoi.rs lines 112-136, Voronoi::build_partial. -/
def build_partial (buildCell : Nat → CellBuildResult) (generators : List Vec3)
    (mask : List Bool) (anchor width : Vec3) (dimensionality : Nat) (periodic : Bool)
    (nVector nScalar : Nat) : Except BuildError Voronoi :=
  build_internal buildCell generators (some mask) anchor width dimensionality periodic
    nVector nScalar

/-- voronoi.rs lines 470-497, the 2D-only part of Voronoi::save: the
Start and End datasets, computed from the face directions; in any other
dimensionality nothing is written. -/
def save2DStartEnd (v : Voronoi) : Option (List Vec3 × List Vec3) :=
  match v.dimensionality with
  | Dimensionality.Dimensionality2D =>
    let face_directions := v.faces.map fun f => Vec3.smul f.area (Vec3.cross f.normal Vec3.unitZ)
    let face_start := (v.faces.zip face_directions).map fun p =>
      Vec3.sub p.1.centroid (Vec3.smul (1/2) p.2)
    let face_end := (v.faces.zip face_directions).map fun p =>
      Vec3.add p.1.centroid (Vec3.smul (1/2) p.2)
    some (face_start, face_end)
  | _ => none

/-! ### Helper notions for the adjacency proofs -/

/-- Face f contributes the face index to the list of cell c: c is the
left cell, or c is the right cell and the face carries no shift. -/
def touches (f : VoronoiFace) (c : Nat) : Prop :=
  f.left = c ∨ (f.right = some c ∧ f.shift = none)

instance (f : VoronoiFace) (c : Nat) : Decidable (touches f c) := by
  unfold touches
  infer_instance

/-- The indices face f at position i appends to the list of cell c. -/
def contrib (i : Nat) (f : VoronoiFace) (c : Nat) : List Nat :=
  (if f.left = c then [i] else [])
    ++ (if f.right = some c ∧ f.shift = none then [i] else [])

/-- All indices the faces fs, starting at position k, append to the list
of cell c. -/
def contribs (k : Nat) (fs : List VoronoiFace) (c : Nat) : List Nat :=
  match fs with
  | [] => []
  | f :: fs => contrib k f c ++ contribs (k + 1) fs c

lemma pushIdx_length (ls : List (List Nat)) (c v : Nat) :
    (pushIdx ls c v).length = ls.length := by
  induction ls generalizing c with
  | nil => rfl
  | cons l rest ih =>
    cases c with
    | zero => rfl
    | succ c => simp [pushIdx, ih]

lemma pushIdx_getD_self (ls : List (List Nat)) (c v : Nat) (h : c < ls.length) :
    (pushIdx ls c v).getD c [] = ls.getD c [] ++ [v] := by
  induction ls generalizing c with
  | nil => simp at h
  | cons l rest ih =>
    cases c with
    | zero => rfl
    | succ c =>
      simp only [pushIdx, List.getD_cons_succ]
      exact ih c (by simpa using h)

lemma pushIdx_getD_ne (ls : List (List Nat)) (c v c' : Nat) (h : c' ≠ c) :
    (pushIdx ls c v).getD c' [] = ls.getD c' [] := by
  induction ls generalizing c c' with
  | nil => rfl
  | cons l rest ih =>
    cases c with
    | zero =>
      cases c' with
      | zero => exact absurd rfl h
      | succ c' => rfl
    | succ c =>
      cases c' with
      | zero => rfl
      | succ c' =>
        simp only [pushIdx, List.getD_cons_succ]
        exact ih c c' (fun hc => h (by simp [hc]))

lemma addFace_length (ls : List (List Nat)) (i : Nat) (f : VoronoiFace) :
    (addFace ls i f).length = ls.length := by
  unfold addFace
  cases hr : f.right with
  | none => simp [pushIdx_length]
  | some r =>
    cases hs : f.shift with
    | none => simp [pushIdx_length]
    | some s => simp [pushIdx_length]

lemma addFace_eq_of_right_none (ls : List (List Nat)) (i : Nat) (f : VoronoiFace)
    (h : f.right = none) : addFace ls i f = pushIdx ls f.left i := by
  unfold addFace
  rw [h]

lemma addFace_eq_of_shift_some (ls : List (List Nat)) (i : Nat) (f : VoronoiFace)
    (r : Nat) (s : Vec3) (hr : f.right = some r) (hs : f.shift = some s) :
    addFace ls i f = pushIdx ls f.left i := by
  unfold addFace
  rw [hr, hs]

lemma addFace_eq_of_right_noshift (ls : List (List Nat)) (i : Nat) (f : VoronoiFace)
    (r : Nat) (hr : f.right = some r) (hs : f.shift = none) :
    addFace ls i f = pushIdx (pushIdx ls f.left i) r i := by
  unfold addFace
  rw [hr, hs]

lemma addFace_getD (ls : List (List Nat)) (i : Nat) (f : VoronoiFace) (c : Nat)
    (hc : c < ls.length) (hl : f.left < ls.length)
    (hr : ∀ r, f.right = some r → r < ls.length) :
    (addFace ls i f).getD c [] = ls.getD c [] ++ contrib i f c := by
  cases hfr : f.right with
  | none =>
    rw [addFace_eq_of_right_none ls i f hfr]
    unfold contrib
    by_cases hlc : f.left = c
    · subst hlc
      rw [pushIdx_getD_self ls f.left i hl]
      simp [hfr]
    · rw [pushIdx_getD_ne ls f.left i c (fun h => hlc h.symm)]
      simp [hlc, hfr]
  | some r =>
    cases hfs : f.shift with
    | none =>
      rw [addFace_eq_of_right_noshift ls i f r hfr hfs]
      unfold contrib
      by_cases hrc : r = c
      · subst hrc
        by_cases hlc : f.left = r
        · rw [pushIdx_getD_self _ _ _ (by rw [pushIdx_length]; exact hr r hfr),
            hlc, pushIdx_getD_self _ _ _ (hlc ▸ hl)]
          simp [hlc, hfr, hfs, List.append_assoc]
        · rw [pushIdx_getD_self _ _ _ (by rw [pushIdx_length]; exact hr r hfr),
            pushIdx_getD_ne _ _ _ _ (fun h => hlc h.symm)]
          simp [hlc, hfr, hfs]
      · by_cases hlc : f.left = c
        · subst hlc
          rw [pushIdx_getD_ne _ _ _ _ (fun h => hrc h.symm),
            pushIdx_getD_self _ _ _ hl]
          simp [hrc, hfr, hfs]
        · rw [pushIdx_getD_ne _ _ _ _ (fun h => hrc h.symm),
            pushIdx_getD_ne _ _ _ _ (fun h => hlc h.symm)]
          simp [hrc, hlc, hfr, hfs]
    | some s =>
      rw [addFace_eq_of_shift_some ls i f r s hfr hfs]
      unfold contrib
      by_cases hlc : f.left = c
      · subst hlc
        rw [pushIdx_getD_self ls f.left i hl]
        simp [hfr, hfs]
      · rw [pushIdx_getD_ne ls f.left i c (fun h => hlc h.symm)]
        simp [hlc, hfr, hfs]

/-- Wellformedness of a face list with respect to a cell count. -/
def facesWF (n : Nat) (fs : List VoronoiFace) : Prop :=
  ∀ g ∈ fs, g.left < n ∧ ∀ r, g.right = some r → r < n

lemma buildCellFaceLists_length (fs : List VoronoiFace) (ls : List (List Nat)) (k : Nat) :
    (buildCellFaceLists ls k fs).length = ls.length := by
  induction fs generalizing ls k with
  | nil => rfl
  | cons f fs ih => simp [buildCellFaceLists, ih, addFace_length]

lemma buildCellFaceLists_getD (fs : List VoronoiFace) (ls : List (List Nat)) (k c : Nat)
    (hc : c < ls.length) (hwf : facesWF ls.length fs) :
    (buildCellFaceLists ls k fs).getD c [] = ls.getD c [] ++ contribs k fs c := by
  induction fs generalizing ls k with
  | nil => simp [buildCellFaceLists, contribs]
  | cons f fs ih =>
    have hf := hwf f (by simp)
    have hwf2 : facesWF (addFace ls k f).length fs := by
      rw [addFace_length]
      intro g hg
      exact hwf g (by simp [hg])
    rw [buildCellFaceLists, ih (addFace ls k f) (k + 1)
        (by rw [addFace_length]; exact hc) hwf2,
      addFace_getD ls k f c hc hf.1 hf.2, contribs, List.append_assoc]

lemma mem_contrib (i k : Nat) (f : VoronoiFace) (c : Nat) :
    i ∈ contrib k f c ↔ i = k ∧ touches f c := by
  unfold contrib touches
  by_cases h1 : f.left = c <;> by_cases h2 : f.right = some c ∧ f.shift = none <;>
    simp [h1, h2]

lemma mem_contribs (i k : Nat) (fs : List VoronoiFace) (c : Nat) :
    i ∈ contribs k fs c ↔ ∃ t f, fs[t]? = some f ∧ i = k + t ∧ touches f c := by
  induction fs generalizing k with
  | nil => simp [contribs]
  | cons f fs ih =>
    simp only [contribs, List.mem_append, mem_contrib, ih]
    constructor
    · rintro (⟨rfl, ht⟩ | ⟨t, g, hg, rfl, ht⟩)
      · exact ⟨0, f, by simp, by omega, ht⟩
      · exact ⟨t + 1, g, by simpa using hg, by omega, ht⟩
    · rintro ⟨t, g, hg, rfl, ht⟩
      cases t with
      | zero =>
        left
        simp only [List.getElem?_cons_zero, Option.some.injEq] at hg
        subst hg
        exact ⟨by omega, ht⟩
      | succ t =>
        right
        exact ⟨t, g, by simpa using hg, by omega, ht⟩

lemma replicate_getD (n c : Nat) :
    (List.replicate n ([] : List Nat)).getD c [] = [] := by
  induction n generalizing c with
  | zero => simp [List.getD]
  | succ n ih =>
    cases c with
    | zero => rfl
    | succ c => exact ih c

lemma cellFaceLists_length (n : Nat) (fs : List VoronoiFace) :
    (cellFaceLists n fs).length = n := by
  simp [cellFaceLists, buildCellFaceLists_length]

lemma cellFaceLists_getD (n : Nat) (fs : List VoronoiFace) (c : Nat)
    (hc : c < n) (hwf : facesWF n fs) :
    (cellFaceLists n fs).getD c [] = contribs 0 fs c := by
  have h := buildCellFaceLists_getD fs (List.replicate n []) 0 c
    (by simpa using hc) (by simpa using hwf)
  simpa [cellFaceLists, replicate_getD] using h

lemma mem_cellFaceLists (n : Nat) (fs : List VoronoiFace) (i c : Nat)
    (hc : c < n) (hwf : facesWF n fs) :
    i ∈ (cellFaceLists n fs).getD c [] ↔ ∃ f, fs[i]? = some f ∧ touches f c := by
  rw [cellFaceLists_getD n fs c hc hwf, mem_contribs]
  constructor
  · rintro ⟨t, f, hf, rfl, ht⟩
    exact ⟨f, by simpa using hf, ht⟩
  · rintro ⟨f, hf, ht⟩
    exact ⟨i, f, hf, by omega, ht⟩

/-! ### Lemmas about finalizeCells and the windows -/

/-- Exclusive prefix sums: position i holds the sum of the entries
before i. -/
def prefixSums : List Nat → List Nat
  | [] => []
  | x :: xs => 0 :: (prefixSums xs).map (fun s => x + s)

lemma finalizeCells_length (cells : List VoronoiCell) (cfc : List (List Nat)) (off : Nat) :
    (finalizeCells cells cfc off).length = cells.length := by
  induction cells generalizing cfc off with
  | nil => rfl
  | cons c cs ih =>
    cases cfc with
    | nil => simp [finalizeCells, ih]
    | cons l ls => simp [finalizeCells, ih]

lemma finalizeCells_map_count (cells : List VoronoiCell) (cfc : List (List Nat)) (off : Nat)
    (h : cfc.length = cells.length) :
    (finalizeCells cells cfc off).map VoronoiCell.face_count = cfc.map List.length := by
  induction cells generalizing cfc off with
  | nil =>
    cases cfc with
    | nil => rfl
    | cons l ls => simp at h
  | cons c cs ih =>
    cases cfc with
    | nil => simp at h
    | cons l ls =>
      simp only [finalizeCells, List.map_cons]
      rw [ih ls (off + l.length) (by simpa using h)]
      rfl

lemma finalizeCells_map_offset (cells : List VoronoiCell) (cfc : List (List Nat)) (off : Nat)
    (h : cfc.length = cells.length) :
    (finalizeCells cells cfc off).map VoronoiCell.face_connections_offset
      = (prefixSums (cfc.map List.length)).map (fun s => off + s) := by
  induction cells generalizing cfc off with
  | nil =>
    cases cfc with
    | nil => rfl
    | cons l ls => simp at h
  | cons c cs ih =>
    cases cfc with
    | nil => simp at h
    | cons l ls =>
      simp only [finalizeCells, List.map_cons, prefixSums]
      rw [ih ls (off + l.length) (by simpa using h)]
      simp [VoronoiCell.finalize, List.map_map, Function.comp, Nat.add_assoc]

lemma finalizeCells_getElem?_volume (cells : List VoronoiCell) (cfc : List (List Nat))
    (off i : Nat) :
    ((finalizeCells cells cfc off)[i]?).map VoronoiCell.volume
      = (cells[i]?).map VoronoiCell.volume := by
  induction cells generalizing cfc off i with
  | nil =>
    cases cfc with
    | nil => rfl
    | cons l ls => rfl
  | cons c cs ih =>
    cases cfc with
    | nil =>
      cases i with
      | zero => simp [finalizeCells, VoronoiCell.finalize]
      | succ i => simpa [finalizeCells] using ih [] off i
    | cons l ls =>
      cases i with
      | zero => simp [finalizeCells, VoronoiCell.finalize]
      | succ i => simpa [finalizeCells] using ih ls (off + l.length) i

lemma finalizeCells_getElem?_centroid (cells : List VoronoiCell) (cfc : List (List Nat))
    (off i : Nat) :
    ((finalizeCells cells cfc off)[i]?).map VoronoiCell.centroid
      = (cells[i]?).map VoronoiCell.centroid := by
  induction cells generalizing cfc off i with
  | nil =>
    cases cfc with
    | nil => rfl
    | cons l ls => rfl
  | cons c cs ih =>
    cases cfc with
    | nil =>
      cases i with
      | zero => simp [finalizeCells, VoronoiCell.finalize]
      | succ i => simpa [finalizeCells] using ih [] off i
    | cons l ls =>
      cases i with
      | zero => simp [finalizeCells, VoronoiCell.finalize]
      | succ i => simpa [finalizeCells] using ih ls (off + l.length) i

/-- The window recorded for cell c by finalizeCells cuts exactly the
c-th connection list out of the flattened array. -/
lemma finalizeCells_window (cells : List VoronoiCell) (cfc : List (List Nat))
    (off : Nat) (pre : List Nat) (c : Nat)
    (hc : c < cells.length) (hlen : cfc.length = cells.length) (hoff : off = pre.length) :
    (((pre ++ cfc.flatten).drop
        (((finalizeCells cells cfc off).getD c VoronoiCell.default).face_connections_offset)).take
      (((finalizeCells cells cfc off).getD c VoronoiCell.default).face_count))
      = cfc.getD c [] := by
  induction cells generalizing cfc off pre c with
  | nil => simp at hc
  | cons cell cs ih =>
    cases cfc with
    | nil => simp at hlen
    | cons l ls =>
      cases c with
      | zero =>
        subst hoff
        simp only [finalizeCells, List.getD_cons_zero, List.flatten_cons,
          VoronoiCell.finalize]
        rw [List.drop_left, List.take_left]
      | succ c =>
        simp only [finalizeCells, List.getD_cons_succ, List.flatten_cons]
        rw [← List.append_assoc]
        exact ih ls (off + l.length) (pre ++ l) c (by simpa using hc)
          (by simpa using hlen) (by simp [hoff])

/-- For a wellformed face list, membership of a face index in the window
of a cell of the finalized Voronoi is exactly the touches relation. -/
lemma mem_finalize_window (v : Voronoi) (i c : Nat)
    (hc : c < v.cells.length)
    (hwf : facesWF v.cells.length v.faces) :
    i ∈ (v.finalize).window c ↔ ∃ f, v.faces[i]? = some f ∧ touches f c := by
  have hlen := cellFaceLists_length v.cells.length v.faces
  have hwin : (v.finalize).window c
      = (cellFaceLists v.cells.length v.faces).getD c [] := by
    unfold Voronoi.finalize Voronoi.window
    simp only []
    have := finalizeCells_window v.cells (cellFaceLists v.cells.length v.faces) 0 [] c
      hc hlen rfl
    simpa using this
  rw [hwin]
  exact mem_cellFaceLists v.cells.length v.faces i c hc hwf

/-! ### Lemmas about buildCellsList and build_internal -/

lemma buildCellsList_length (buildCell : Nat → CellBuildResult) (mask : Option (List Bool))
    (is : List Nat) (rs : List CellBuildResult)
    (h : buildCellsList buildCell mask is = Except.ok rs) : rs.length = is.length := by
  induction is generalizing rs with
  | nil =>
    simp only [buildCellsList] at h
    cases h
    rfl
  | cons i is ih =>
    simp only [buildCellsList] at h
    cases hm : maybe_build_cell buildCell mask i with
    | error e => rw [hm] at h; cases h
    | ok r =>
      rw [hm] at h
      cases hrest : buildCellsList buildCell mask is with
      | error e => rw [hrest] at h; cases h
      | ok rs2 =>
        rw [hrest] at h
        cases h
        simp [ih rs2 hrest]

lemma buildCellsList_getElem? (buildCell : Nat → CellBuildResult) (mask : Option (List Bool))
    (is : List Nat) (rs : List CellBuildResult)
    (h : buildCellsList buildCell mask is = Except.ok rs) (t j : Nat) (ht : is[t]? = some j) :
    ∃ r, rs[t]? = some r ∧ maybe_build_cell buildCell mask j = Except.ok r := by
  induction is generalizing rs t with
  | nil => simp at ht
  | cons i is ih =>
    simp only [buildCellsList] at h
    cases hm : maybe_build_cell buildCell mask i with
    | error e => rw [hm] at h; cases h
    | ok r =>
      rw [hm] at h
      cases hrest : buildCellsList buildCell mask is with
      | error e => rw [hrest] at h; cases h
      | ok rs2 =>
        rw [hrest] at h
        cases h
        cases t with
        | zero =>
          simp only [List.getElem?_cons_zero, Option.some.injEq] at ht
          subst ht
          exact ⟨r, by simp, hm⟩
        | succ t =>
          simp only [List.getElem?_cons_succ] at ht ⊢
          exact ih rs2 hrest t ht

lemma buildCellsList_ok_of_all_ok (buildCell : Nat → CellBuildResult)
    (mask : Option (List Bool)) (is : List Nat)
    (h : ∀ j ∈ is, ∃ r, maybe_build_cell buildCell mask j = Except.ok r) :
    ∃ rs, buildCellsList buildCell mask is = Except.ok rs := by
  induction is with
  | nil => exact ⟨[], rfl⟩
  | cons i is ih =>
    obtain ⟨r, hr⟩ := h i (by simp)
    obtain ⟨rs, hrs⟩ := ih fun j hj => h j (by simp [hj])
    exact ⟨r :: rs, by simp [buildCellsList, hr, hrs]⟩

lemma buildCellsList_append_error (buildCell : Nat → CellBuildResult)
    (mask : Option (List Bool)) (as : List Nat) (j : Nat) (bs : List Nat) (e : BuildError)
    (hok : ∀ a ∈ as, ∃ r, maybe_build_cell buildCell mask a = Except.ok r)
    (herr : maybe_build_cell buildCell mask j = Except.error e) :
    buildCellsList buildCell mask (as ++ j :: bs) = Except.error e := by
  induction as with
  | nil => simp [buildCellsList, herr]
  | cons a as ih =>
    obtain ⟨r, hr⟩ := hok a (by simp)
    have := ih fun x hx => hok x (by simp [hx])
    simp [buildCellsList, hr, this]

/-- Characterization of the invalid dimensionality values. -/
lemma ofUsize_eq_none_iff (d : Nat) :
    Dimensionality.ofUsize d = none ↔ d ≠ 1 ∧ d ≠ 2 ∧ d ≠ 3 := by
  rcases d with _ | _ | _ | _ | d <;> simp [Dimensionality.ofUsize]

lemma build_internal_error_of_invalid (buildCell : Nat → CellBuildResult)
    (generators : List Vec3) (mask : Option (List Bool)) (anchor width : Vec3)
    (d : Nat) (periodic : Bool) (nVector nScalar : Nat)
    (h : Dimensionality.ofUsize d = none) :
    build_internal buildCell generators mask anchor width d periodic nVector nScalar
      = Except.error BuildError.invalidDimensionality := by
  unfold build_internal
  rw [h]

lemma build_internal_ok_of (buildCell : Nat → CellBuildResult)
    (generators : List Vec3) (mask : Option (List Bool)) (anchor width : Vec3)
    (d : Nat) (periodic : Bool) (nVector nScalar : Nat)
    (dim : Dimensionality) (results : List CellBuildResult)
    (hdim : Dimensionality.ofUsize d = some dim)
    (hres : buildCellsList buildCell mask (List.range generators.length) = Except.ok results) :
    build_internal buildCell generators mask anchor width d periodic nVector nScalar
      = Except.ok (assemble dim (normalizeAnchor dim anchor) (normalizeWidth dim width)
          results nVector nScalar) := by
  unfold build_internal
  rw [hdim, hres]

lemma build_internal_destruct (buildCell : Nat → CellBuildResult)
    (generators : List Vec3) (mask : Option (List Bool)) (anchor width : Vec3)
    (d : Nat) (periodic : Bool) (nVector nScalar : Nat) (v : Voronoi)
    (h : build_internal buildCell generators mask anchor width d periodic nVector nScalar
      = Except.ok v) :
    ∃ dim results, Dimensionality.ofUsize d = some dim
      ∧ buildCellsList buildCell mask (List.range generators.length) = Except.ok results
      ∧ v = assemble dim (normalizeAnchor dim anchor) (normalizeWidth dim width)
          results nVector nScalar := by
  unfold build_internal at h
  cases hdim : Dimensionality.ofUsize d with
  | none => rw [hdim] at h; cases h
  | some dim =>
    rw [hdim] at h
    cases hres : buildCellsList buildCell mask (List.range generators.length) with
    | error e => rw [hres] at h; cases h
    | ok results =>
      rw [hres] at h
      cases h
      exact ⟨dim, results, rfl, rfl, rfl⟩

lemma finalize_anchor (v : Voronoi) : (v.finalize).anchor = v.anchor := rfl

lemma finalize_width (v : Voronoi) : (v.finalize).width = v.width := rfl

lemma finalize_faces (v : Voronoi) : (v.finalize).faces = v.faces := rfl

lemma assemble_anchor (dim : Dimensionality) (a w : Vec3) (results : List CellBuildResult)
    (nV nS : Nat) : (assemble dim a w results nV nS).anchor = a := rfl

lemma assemble_width (dim : Dimensionality) (a w : Vec3) (results : List CellBuildResult)
    (nV nS : Nat) : (assemble dim a w results nV nS).width = w := rfl

lemma assemble_cells (dim : Dimensionality) (a w : Vec3) (results : List CellBuildResult)
    (nV nS : Nat) :
    (assemble dim a w results nV nS).cells
      = finalizeCells (results.map CellBuildResult.cell)
          (cellFaceLists (results.map CellBuildResult.cell).length
            (retain ((results.map CellBuildResult.faces).flatten)
              (((results.map CellBuildResult.faces).flatten).map
                fun f => has_valid_dimensionality dim f))) 0 := rfl

lemma assemble_cells_length (dim : Dimensionality) (a w : Vec3)
    (results : List CellBuildResult) (nV nS : Nat) :
    (assemble dim a w results nV nS).cells.length = results.length := by
  rw [assemble_cells, finalizeCells_length, List.length_map]

lemma build_internal_error_of_cells (buildCell : Nat → CellBuildResult)
    (generators : List Vec3) (mask : Option (List Bool)) (anchor width : Vec3)
    (d : Nat) (periodic : Bool) (nVector nScalar : Nat)
    (dim : Dimensionality) (e : BuildError)
    (hdim : Dimensionality.ofUsize d = some dim)
    (hres : buildCellsList buildCell mask (List.range generators.length) = Except.error e) :
    build_internal buildCell generators mask anchor width d periodic nVector nScalar
      = Except.error e := by
  unfold build_internal
  rw [hdim, hres]

lemma maybe_build_cell_error (buildCell : Nat → CellBuildResult)
    (mask : Option (List Bool)) (idx : Nat) (e : BuildError)
    (h : maybe_build_cell buildCell mask idx = Except.error e) :
    e = BuildError.maskIndexOutOfBounds := by
  cases mask with
  | none => simp [maybe_build_cell] at h
  | some m =>
    simp only [maybe_build_cell] at h
    cases hm : m[idx]? with
    | none =>
      rw [hm] at h
      cases h
      rfl
    | some b =>
      rw [hm] at h
      cases b <;> simp at h

lemma buildCellsList_error (buildCell : Nat → CellBuildResult)
    (mask : Option (List Bool)) (is : List Nat) (e : BuildError)
    (h : buildCellsList buildCell mask is = Except.error e) :
    e = BuildError.maskIndexOutOfBounds := by
  induction is with
  | nil => simp [buildCellsList] at h
  | cons i is ih =>
    simp only [buildCellsList] at h
    cases hm : maybe_build_cell buildCell mask i with
    | error e2 =>
      rw [hm] at h
      cases h
      exact maybe_build_cell_error buildCell mask i e hm
    | ok r =>
      rw [hm] at h
      cases hrest : buildCellsList buildCell mask is with
      | error e2 =>
        rw [hrest] at h
        cases h
        exact ih hrest
      | ok rs =>
        rw [hrest] at h
        cases h

lemma zip_map_self {α β γ : Type} (l : List α) (g : α → β) (h : α → β → γ) :
    ((l.zip (l.map g)).map fun p => h p.1 p.2) = l.map fun x => h x (g x) := by
  induction l with
  | nil => rfl
  | cons x xs ih => simp [ih]

/-! ### Claim theorems -/

/-- C3: in the finalized Voronoi, every face index i appears in the
cell-face connection window of the left cell of face i, it appears in the
window of another cell c exactly when c is the right cell of the face and
the face has no shift, and it appears in no other window. -/
theorem c3_face_window_membership (v : Voronoi) (i : Nat) (f : VoronoiFace)
    (hf : v.faces[i]? = some f)
    (hwf : ∀ g ∈ v.faces, g.left < v.cells.length
      ∧ ∀ r, g.right = some r → r < v.cells.length) :
    i ∈ (v.finalize).window f.left
      ∧ ∀ c, c < v.cells.length → c ≠ f.left →
          (i ∈ (v.finalize).window c ↔ (f.right = some c ∧ f.shift = none)) := by
  have hfm : f ∈ v.faces := by
    obtain ⟨hlt, hget⟩ := List.getElem?_eq_some.1 hf
    exact hget ▸ List.getElem_mem hlt
  have hl : f.left < v.cells.length := (hwf f hfm).1
  constructor
  · rw [mem_finalize_window v i f.left hl hwf]
    exact ⟨f, hf, Or.inl rfl⟩
  · intro c hc hne
    rw [mem_finalize_window v i c hc hwf]
    constructor
    · rintro ⟨g, hg, ht⟩
      rw [hf] at hg
      cases hg
      cases ht with
      | inl hleft => exact absurd hleft.symm hne
      | inr hright => exact hright
    · rintro ⟨hr, hs⟩
      exact ⟨f, hf, Or.inr ⟨hr, hs⟩⟩

def c3Face : VoronoiFace :=
  ⟨1, Vec3.zero, Vec3.unitZ, 0, some 1, none⟩

def c3Voronoi : Voronoi :=
  ⟨Vec3.zero, Vec3.zero, [VoronoiCell.default, VoronoiCell.default], [c3Face],
    [], [], [], Dimensionality.Dimensionality3D⟩

/-- Witness for C3 on a concrete two-cell Voronoi with one internal
face. -/
theorem c3_face_window_membership_witness :
    0 ∈ (c3Voronoi.finalize).window 0
      ∧ (0 ∈ (c3Voronoi.finalize).window 1
          ↔ (c3Face.right = some 1 ∧ c3Face.shift = none)) := by
  have hwf : ∀ g ∈ c3Voronoi.faces, g.left < c3Voronoi.cells.length
      ∧ ∀ r, g.right = some r → r < c3Voronoi.cells.length := by
    intro g hg
    have hg2 : g = c3Face := by simpa [c3Voronoi] using hg
    subst hg2
    refine ⟨by decide, ?_⟩
    intro r hr
    have h1 : r = 1 := by simpa [c3Face] using hr.symm
    subst h1
    decide
  have h := c3_face_window_membership c3Voronoi 0 c3Face rfl hwf
  exact ⟨h.1, h.2 1 (by decide) (by decide)⟩

/-- C4: after finalize the per-cell windows partition the flattened
connection array contiguously: the offsets are the exclusive prefix sums
of the face counts and the counts sum to its total length. -/
theorem c4_windows_partition (v : Voronoi) :
    (v.finalize).cells.map VoronoiCell.face_connections_offset
        = prefixSums ((v.finalize).cells.map VoronoiCell.face_count)
      ∧ ((v.finalize).cells.map VoronoiCell.face_count).sum
        = (v.finalize).cell_face_connections.length := by
  have hlen := cellFaceLists_length v.cells.length v.faces
  have hcells : (v.finalize).cells
      = finalizeCells v.cells (cellFaceLists v.cells.length v.faces) 0 := rfl
  have hconn : (v.finalize).cell_face_connections
      = (cellFaceLists v.cells.length v.faces).flatten := rfl
  constructor
  · rw [hcells, finalizeCells_map_count _ _ _ hlen, finalizeCells_map_offset _ _ _ hlen]
    simp
  · rw [hcells, hconn, finalizeCells_map_count _ _ _ hlen, List.length_flatten]

/-- C7: the returned cells list has exactly one element per input
generator, for build and build_partial with any mask. -/
theorem c7_cell_count (buildCell : Nat → CellBuildResult) (generators : List Vec3)
    (mask : Option (List Bool)) (anchor width : Vec3) (d : Nat) (periodic : Bool)
    (nVector nScalar : Nat) (v : Voronoi)
    (h : build_internal buildCell generators mask anchor width d periodic nVector nScalar
      = Except.ok v) :
    v.cells.length = generators.length := by
  obtain ⟨dim, results, hdim, hres, rfl⟩ :=
    build_internal_destruct buildCell generators mask anchor width d periodic
      nVector nScalar v h
  rw [assemble_cells_length, buildCellsList_length buildCell mask _ _ hres,
    List.length_range]

/-- A trivial cell builder used by concrete witnesses. -/
def trivialBuildCell : Nat → CellBuildResult := fun _ => defaultCellBuildResult

/-- Witness for C7: a concrete two-generator build yields two cells. -/
theorem c7_cell_count_witness :
    ∃ v, build trivialBuildCell [Vec3.zero, Vec3.unitZ] Vec3.zero Vec3.zero 3 false 0 0
        = Except.ok v
      ∧ v.cells.length = 2 := by
  obtain ⟨v, hv⟩ : ∃ v,
      build trivialBuildCell [Vec3.zero, Vec3.unitZ] Vec3.zero Vec3.zero 3 false 0 0
        = Except.ok v := ⟨_, rfl⟩
  exact ⟨v, hv, c7_cell_count trivialBuildCell [Vec3.zero, Vec3.unitZ] none
    Vec3.zero Vec3.zero 3 false 0 0 v hv⟩

/-- C2: in a build_partial with a mask of the same length as the
generators, every cell whose mask entry is false is the default
zero-volume cell (volume 0, centroid 0), and every cell whose entry is
true carries the volume and centroid produced by the full construction
for that generator. -/
theorem c2_partial_mask_cells (buildCell : Nat → CellBuildResult) (generators : List Vec3)
    (mask : List Bool) (anchor width : Vec3) (d : Nat) (periodic : Bool)
    (nVector nScalar : Nat) (v : Voronoi) (i : Nat)
    (hlen : mask.length = generators.length)
    (h : build_partial buildCell generators mask anchor width d periodic nVector nScalar
      = Except.ok v) :
    (mask[i]? = some false →
      (v.cells[i]?).map VoronoiCell.volume = some 0
        ∧ (v.cells[i]?).map VoronoiCell.centroid = some Vec3.zero)
  ∧ (mask[i]? = some true →
      (v.cells[i]?).map VoronoiCell.volume = some (buildCell i).cell.volume
        ∧ (v.cells[i]?).map VoronoiCell.centroid = some (buildCell i).cell.centroid) := by
  obtain ⟨dim, results, hdim, hres, rfl⟩ :=
    build_internal_destruct buildCell generators (some mask) anchor width d periodic
      nVector nScalar v h
  have hcell : ∀ b : Bool, mask[i]? = some b →
      ∃ r, results[i]? = some r
        ∧ maybe_build_cell buildCell (some mask) i = Except.ok r := by
    intro b hb
    have hi : i < mask.length := (List.getElem?_eq_some.1 hb).1
    have hr : (List.range generators.length)[i]? = some i := by
      rw [List.getElem?_range (by omega)]
    exact buildCellsList_getElem? buildCell (some mask) _ results hres i i hr
  have hvols : ∀ r, results[i]? = some r →
      ((assemble dim (normalizeAnchor dim anchor) (normalizeWidth dim width)
          results nVector nScalar).cells[i]?).map VoronoiCell.volume = some r.cell.volume
      ∧ ((assemble dim (normalizeAnchor dim anchor) (normalizeWidth dim width)
          results nVector nScalar).cells[i]?).map VoronoiCell.centroid
        = some r.cell.centroid := by
    intro r hr
    rw [assemble_cells]
    constructor
    · rw [finalizeCells_getElem?_volume, List.getElem?_map, hr]
      rfl
    · rw [finalizeCells_getElem?_centroid, List.getElem?_map, hr]
      rfl
  constructor
  · intro hfalse
    obtain ⟨r, hri, hmb⟩ := hcell false hfalse
    have hrdef : r = defaultCellBuildResult := by
      simp only [maybe_build_cell, hfalse] at hmb
      simpa using hmb.symm
    subst hrdef
    exact hvols defaultCellBuildResult hri
  · intro htrue
    obtain ⟨r, hri, hmb⟩ := hcell true htrue
    have hrbuild : r = buildCell i := by
      simp only [maybe_build_cell, htrue] at hmb
      simpa using hmb.symm
    subst hrbuild
    exact hvols (buildCell i) hri

/-- A cell builder with a recognisable nonzero volume, for the C2
witness. -/
def c2BuildCell : Nat → CellBuildResult :=
  fun _ => ⟨⟨Vec3.zero, 5, ⟨1, 1, 1⟩, 0, 0⟩, [], [], []⟩

/-- Witness for C2: mask [false, true] over two generators gives a
zero-volume cell 0 and a fully built cell 1. -/
theorem c2_partial_mask_cells_witness :
    ∃ v, build_partial c2BuildCell [Vec3.zero, Vec3.unitZ] [false, true]
          Vec3.zero Vec3.zero 3 false 0 0 = Except.ok v
      ∧ (v.cells[0]?).map VoronoiCell.volume = some 0
      ∧ (v.cells[1]?).map VoronoiCell.volume = some 5 := by
  obtain ⟨v, hv⟩ : ∃ v, build_partial c2BuildCell [Vec3.zero, Vec3.unitZ] [false, true]
      Vec3.zero Vec3.zero 3 false 0 0 = Except.ok v := ⟨_, rfl⟩
  have h0 := c2_partial_mask_cells c2BuildCell [Vec3.zero, Vec3.unitZ] [false, true]
    Vec3.zero Vec3.zero 3 false 0 0 v 0 rfl hv
  have h1 := c2_partial_mask_cells c2BuildCell [Vec3.zero, Vec3.unitZ] [false, true]
    Vec3.zero Vec3.zero 3 false 0 0 v 1 rfl hv
  exact ⟨v, hv, (h0.1 rfl).1, (h1.2 rfl).1⟩

/-- C5: for a dimensionality outside 1, 2, 3 both entry points fail
with the invalid dimensionality panic before any construction (the
result is the bare error, independent of the cell builder), and for 1, 2
or 3 this failure cannot happen. -/
theorem c5_invalid_dimensionality (buildCell : Nat → CellBuildResult)
    (generators : List Vec3) (mask : Option (List Bool)) (anchor width : Vec3)
    (d : Nat) (periodic : Bool) (nVector nScalar : Nat) :
    ((d ≠ 1 ∧ d ≠ 2 ∧ d ≠ 3) →
      build_internal buildCell generators mask anchor width d periodic nVector nScalar
        = Except.error BuildError.invalidDimensionality)
  ∧ ((d = 1 ∨ d = 2 ∨ d = 3) →
      build_internal buildCell generators mask anchor width d periodic nVector nScalar
        ≠ Except.error BuildError.invalidDimensionality) := by
  constructor
  · intro hd
    exact build_internal_error_of_invalid buildCell generators mask anchor width d
      periodic nVector nScalar ((ofUsize_eq_none_iff d).2 hd)
  · intro hd hcontra
    obtain ⟨dim, hdim⟩ : ∃ dim, Dimensionality.ofUsize d = some dim := by
      rcases hd with rfl | rfl | rfl
      · exact ⟨Dimensionality.Dimensionality1D, rfl⟩
      · exact ⟨Dimensionality.Dimensionality2D, rfl⟩
      · exact ⟨Dimensionality.Dimensionality3D, rfl⟩
    cases hres : buildCellsList buildCell mask (List.range generators.length) with
    | error e =>
      have he := buildCellsList_error buildCell mask _ e hres
      subst he
      rw [build_internal_error_of_cells buildCell generators mask anchor width d
        periodic nVector nScalar dim BuildError.maskIndexOutOfBounds hdim hres] at hcontra
      simp at hcontra
    | ok results =>
      rw [build_internal_ok_of buildCell generators mask anchor width d periodic
        nVector nScalar dim results hdim hres] at hcontra
      cases hcontra

/-- Witness for C5: dimensionality 5 fails with the invalid
dimensionality error and dimensionality 2 does not. -/
theorem c5_invalid_dimensionality_witness :
    build trivialBuildCell [Vec3.zero] Vec3.zero Vec3.zero 5 false 0 0
        = Except.error BuildError.invalidDimensionality
      ∧ build trivialBuildCell [Vec3.zero] Vec3.zero Vec3.zero 2 false 0 0
        ≠ Except.error BuildError.invalidDimensionality := by
  constructor
  · exact (c5_invalid_dimensionality trivialBuildCell [Vec3.zero] none Vec3.zero
      Vec3.zero 5 false 0 0).1 (by omega)
  · exact (c5_invalid_dimensionality trivialBuildCell [Vec3.zero] none Vec3.zero
      Vec3.zero 2 false 0 0).2 (by omega)

/-- C6: the returned anchor and width replace the inactive components
(z in 2D, y and z in 1D) by -0.5 and 1.0 and keep the active components;
in 3D they equal the inputs. -/
theorem c6_anchor_width_normalization (buildCell : Nat → CellBuildResult)
    (generators : List Vec3) (mask : Option (List Bool)) (a w : Vec3)
    (d : Nat) (periodic : Bool) (nVector nScalar : Nat) (v : Voronoi)
    (h : build_internal buildCell generators mask a w d periodic nVector nScalar
      = Except.ok v) :
    (d = 2 → v.anchor = ⟨a.x, a.y, -(1/2)⟩ ∧ v.width = ⟨w.x, w.y, 1⟩)
  ∧ (d = 1 → v.anchor = ⟨a.x, -(1/2), -(1/2)⟩ ∧ v.width = ⟨w.x, 1, 1⟩)
  ∧ (d = 3 → v.anchor = a ∧ v.width = w) := by
  obtain ⟨dim, results, hdim, hres, rfl⟩ :=
    build_internal_destruct buildCell generators mask a w d periodic nVector nScalar v h
  refine ⟨?_, ?_, ?_⟩ <;> rintro rfl
  · have hdim2 : dim = Dimensionality.Dimensionality2D := by
      simpa [Dimensionality.ofUsize] using hdim.symm
    subst hdim2
    exact ⟨rfl, rfl⟩
  · have hdim1 : dim = Dimensionality.Dimensionality1D := by
      simpa [Dimensionality.ofUsize] using hdim.symm
    subst hdim1
    exact ⟨rfl, rfl⟩
  · have hdim3 : dim = Dimensionality.Dimensionality3D := by
      simpa [Dimensionality.ofUsize] using hdim.symm
    subst hdim3
    exact ⟨rfl, rfl⟩

/-- Witness for C6: a 2D build on a concrete anchor and width replaces
exactly the z components. -/
theorem c6_anchor_width_normalization_witness :
    ∃ v, build trivialBuildCell [Vec3.zero] ⟨1, 2, 3⟩ ⟨4, 5, 6⟩ 2 false 0 0
        = Except.ok v
      ∧ v.anchor = ⟨1, 2, -(1/2)⟩ ∧ v.width = ⟨4, 5, 1⟩ := by
  obtain ⟨v, hv⟩ : ∃ v, build trivialBuildCell [Vec3.zero] ⟨1, 2, 3⟩ ⟨4, 5, 6⟩ 2 false 0 0
      = Except.ok v := ⟨_, rfl⟩
  have h := (c6_anchor_width_normalization trivialBuildCell [Vec3.zero] none
    ⟨1, 2, 3⟩ ⟨4, 5, 6⟩ 2 false 0 0 v hv).1 rfl
  exact ⟨v, hv, h.1, h.2⟩

/-- C8: two build calls with identical inputs yield identical cells,
faces, connections and face integrals. -/
theorem c8_deterministic_rebuild (bc1 bc2 : Nat → CellBuildResult)
    (g1 g2 : List Vec3) (a1 a2 w1 w2 : Vec3) (d1 d2 : Nat) (p1 p2 : Bool)
    (nV1 nV2 nS1 nS2 : Nat) (v1 v2 : Voronoi)
    (h1 : build bc1 g1 a1 w1 d1 p1 nV1 nS1 = Except.ok v1)
    (h2 : build bc2 g2 a2 w2 d2 p2 nV2 nS2 = Except.ok v2)
    (heq : bc1 = bc2 ∧ g1 = g2 ∧ a1 = a2 ∧ w1 = w2 ∧ d1 = d2 ∧ p1 = p2
      ∧ nV1 = nV2 ∧ nS1 = nS2) :
    v1.cells = v2.cells ∧ v1.faces = v2.faces
      ∧ v1.cell_face_connections = v2.cell_face_connections
      ∧ v1.vector_face_integrals = v2.vector_face_integrals
      ∧ v1.scalar_face_integrals = v2.scalar_face_integrals := by
  obtain ⟨rfl, rfl, rfl, rfl, rfl, rfl, rfl, rfl⟩ := heq
  rw [h1] at h2
  cases h2
  exact ⟨rfl, rfl, rfl, rfl, rfl⟩

/-- Witness for C8 at a concrete input. -/
theorem c8_deterministic_rebuild_witness :
    ∃ v, build trivialBuildCell [Vec3.zero] Vec3.zero Vec3.unitZ 3 true 0 0
        = Except.ok v
      ∧ v.cells = v.cells ∧ v.faces = v.faces := by
  obtain ⟨v, hv⟩ : ∃ v, build trivialBuildCell [Vec3.zero] Vec3.zero Vec3.unitZ 3 true 0 0
      = Except.ok v := ⟨_, rfl⟩
  have h := c8_deterministic_rebuild trivialBuildCell trivialBuildCell [Vec3.zero]
    [Vec3.zero] Vec3.zero Vec3.zero Vec3.unitZ Vec3.unitZ 3 3 true true 0 0 0 0 v v hv hv
    ⟨rfl, rfl, rfl, rfl, rfl, rfl, rfl, rfl⟩
  exact ⟨v, hv, h.1, h.2.1⟩

/-- C9: in 2D mode the persisted Start and End points are the face
centroid minus and plus half the direction, with the direction the face
area times the cross product of its normal with the z unit vector, and
the Start and End datasets exist only in 2D mode. -/
theorem c9_save_start_end (v : Voronoi) :
    (v.dimensionality = Dimensionality.Dimensionality2D →
      save2DStartEnd v
        = some
          (v.faces.map fun f => Vec3.sub f.centroid
            (Vec3.smul (1/2) (Vec3.smul f.area (Vec3.cross f.normal Vec3.unitZ))),
           v.faces.map fun f => Vec3.add f.centroid
            (Vec3.smul (1/2) (Vec3.smul f.area (Vec3.cross f.normal Vec3.unitZ)))))
  ∧ (v.dimensionality ≠ Dimensionality.Dimensionality2D → save2DStartEnd v = none) := by
  constructor
  · intro h2
    simp only [save2DStartEnd, h2]
    rw [zip_map_self v.faces
        (fun f => Vec3.smul f.area (Vec3.cross f.normal Vec3.unitZ))
        (fun f dir => Vec3.sub f.centroid (Vec3.smul (1/2) dir)),
      zip_map_self v.faces
        (fun f => Vec3.smul f.area (Vec3.cross f.normal Vec3.unitZ))
        (fun f dir => Vec3.add f.centroid (Vec3.smul (1/2) dir))]
  · intro hne
    unfold save2DStartEnd
    cases hd : v.dimensionality with
    | Dimensionality1D => rfl
    | Dimensionality2D => exact absurd hd hne
    | Dimensionality3D => rfl

/-- A concrete face for the C9 witness. -/
def c9Face : VoronoiFace :=
  ⟨2, ⟨1, 1, 0⟩, ⟨0, 1, 0⟩, 0, none, none⟩

/-- Witness for C9: one concrete 2D Voronoi with a single face, and one
3D Voronoi where nothing is written. -/
theorem c9_save_start_end_witness :
    save2DStartEnd ⟨Vec3.zero, Vec3.zero, [], [c9Face], [], [], [],
        Dimensionality.Dimensionality2D⟩
      = some
        ([Vec3.sub c9Face.centroid
            (Vec3.smul (1/2) (Vec3.smul c9Face.area (Vec3.cross c9Face.normal Vec3.unitZ)))],
         [Vec3.add c9Face.centroid
            (Vec3.smul (1/2) (Vec3.smul c9Face.area (Vec3.cross c9Face.normal Vec3.unitZ)))])
      ∧ save2DStartEnd ⟨Vec3.zero, Vec3.zero, [], [c9Face], [], [], [],
          Dimensionality.Dimensionality3D⟩ = none := by
  constructor
  · exact (c9_save_start_end ⟨Vec3.zero, Vec3.zero, [], [c9Face], [], [], [],
      Dimensionality.Dimensionality2D⟩).1 rfl
  · exact (c9_save_start_end ⟨Vec3.zero, Vec3.zero, [], [c9Face], [], [], [],
      Dimensionality.Dimensionality3D⟩).2 (by simp)

/-- C10: with a valid dimensionality, build_partial with a mask shorter
than the generator list always hits the out-of-bounds mask index panic,
and with a mask at least as long as the generator list that panic branch
is unreachable and a Voronoi is returned. -/
theorem c10_mask_length_precondition (buildCell : Nat → CellBuildResult)
    (generators : List Vec3) (mask : List Bool) (anchor width : Vec3)
    (d : Nat) (periodic : Bool) (nVector nScalar : Nat)
    (hd : d = 1 ∨ d = 2 ∨ d = 3) :
    (mask.length < generators.length →
      build_partial buildCell generators mask anchor width d periodic nVector nScalar
        = Except.error BuildError.maskIndexOutOfBounds)
  ∧ (generators.length ≤ mask.length →
      ∃ v, build_partial buildCell generators mask anchor width d periodic nVector nScalar
        = Except.ok v) := by
  obtain ⟨dim, hdim⟩ : ∃ dim, Dimensionality.ofUsize d = some dim := by
    rcases hd with rfl | rfl | rfl
    · exact ⟨Dimensionality.Dimensionality1D, rfl⟩
    · exact ⟨Dimensionality.Dimensionality2D, rfl⟩
    · exact ⟨Dimensionality.Dimensionality3D, rfl⟩
  constructor
  · intro hlt
    have hsplit : List.range generators.length
        = List.range mask.length
          ++ mask.length :: ((List.range (generators.length - mask.length - 1)).map
              fun t => mask.length + (t + 1)) := by
      have h1 : generators.length = mask.length + (generators.length - mask.length) := by
        omega
      have h2 : generators.length - mask.length
          = (generators.length - mask.length - 1) + 1 := by
        omega
      rw [h1, List.range_add, h2, List.range_succ_eq_map]
      simp [List.map_map, Function.comp]
    have hok : ∀ a ∈ List.range mask.length,
        ∃ r, maybe_build_cell buildCell (some mask) a = Except.ok r := by
      intro a ha
      have halt : a < mask.length := List.mem_range.1 ha
      obtain ⟨b, hb⟩ : ∃ b, mask[a]? = some b := by
        cases hma : mask[a]? with
        | none => exact absurd (List.getElem?_eq_none_iff.1 hma) (by omega)
        | some b => exact ⟨b, rfl⟩
      cases b
      · exact ⟨defaultCellBuildResult, by simp [maybe_build_cell, hb]⟩
      · exact ⟨buildCell a, by simp [maybe_build_cell, hb]⟩
    have herr : maybe_build_cell buildCell (some mask) mask.length
        = Except.error BuildError.maskIndexOutOfBounds := by
      have : mask[mask.length]? = none := by
        rw [List.getElem?_eq_none_iff]
      simp [maybe_build_cell, this]
    have hres : buildCellsList buildCell (some mask) (List.range generators.length)
        = Except.error BuildError.maskIndexOutOfBounds := by
      rw [hsplit]
      exact buildCellsList_append_error buildCell (some mask) _ _ _ _ hok herr
    exact build_internal_error_of_cells buildCell generators (some mask) anchor width d
      periodic nVector nScalar dim BuildError.maskIndexOutOfBounds hdim hres
  · intro hle
    have hall : ∀ j ∈ List.range generators.length,
        ∃ r, maybe_build_cell buildCell (some mask) j = Except.ok r := by
      intro j hj
      have hjl : j < mask.length := by
        have := List.mem_range.1 hj
        omega
      obtain ⟨b, hb⟩ : ∃ b, mask[j]? = some b := by
        cases hmj : mask[j]? with
        | none => exact absurd (List.getElem?_eq_none_iff.1 hmj) (by omega)
        | some b => exact ⟨b, rfl⟩
      cases b
      · exact ⟨defaultCellBuildResult, by simp [maybe_build_cell, hb]⟩
      · exact ⟨buildCell j, by simp [maybe_build_cell, hb]⟩
    obtain ⟨rs, hrs⟩ := buildCellsList_ok_of_all_ok buildCell (some mask) _ hall
    exact ⟨_, build_internal_ok_of buildCell generators (some mask) anchor width d
      periodic nVector nScalar dim rs hdim hrs⟩

/-- Witness for C10: two generators with a one-entry mask panic on the
mask index, and with a two-entry mask a Voronoi is returned. -/
theorem c10_mask_length_precondition_witness :
    build_partial trivialBuildCell [Vec3.zero, Vec3.unitZ] [true] Vec3.zero Vec3.zero 3
        false 0 0 = Except.error BuildError.maskIndexOutOfBounds
      ∧ ∃ v, build_partial trivialBuildCell [Vec3.zero, Vec3.unitZ] [true, false]
          Vec3.zero Vec3.zero 3 false 0 0 = Except.ok v := by
  constructor
  · exact (c10_mask_length_precondition trivialBuildCell [Vec3.zero, Vec3.unitZ] [true]
      Vec3.zero Vec3.zero 3 false 0 0 (by omega)).1 (by simp)
  · exact (c10_mask_length_precondition trivialBuildCell [Vec3.zero, Vec3.unitZ]
      [true, false] Vec3.zero Vec3.zero 3 false 0 0 (by omega)).2 (by simp)

/-! ### C1: the face integral lists are not parallel to the filtered
face list. A 2D build where one of the two emitted faces is dropped by
the dimensionality filter leaves the single scalar integrator list with
one entry per unfiltered face. -/

/-- A face that survives the 2D dimensionality filter (normal along x). -/
def c1Face0 : VoronoiFace := ⟨1, Vec3.zero, ⟨1, 0, 0⟩, 0, none, none⟩

/-- A face dropped by the 2D dimensionality filter (normal along z, as
for the top or bottom slab wall). -/
def c1Face1 : VoronoiFace := ⟨1, Vec3.zero, ⟨0, 0, 1⟩, 0, none, none⟩

/-- A cell builder emitting the two faces above, with one scalar
integrator contributing one value per emitted face (values 3 and 4). -/
def c1BuildCell : Nat → CellBuildResult :=
  fun _ => ⟨VoronoiCell.default, [c1Face0, c1Face1], [], [3, 4]⟩

/-- C1 counterexample: a 2D build with one generator and one scalar
integrator returns one face after dimensionality filtering, yet the
single returned scalar integral list still has two entries, because the
code applies the per-face retain mask to the outer list of
per-integrator lists (voronoi.rs line 317) instead of to each inner
list; the integrals are therefore not parallel to faces. -/
theorem c1_face_integrals_not_parallel :
    ∃ v, build c1BuildCell [Vec3.zero] Vec3.zero Vec3.zero 2 false 0 1 = Except.ok v
      ∧ v.faces.length = 1
      ∧ v.scalar_face_integrals.map List.length = [2] := by
  refine ⟨_, rfl, ?_, ?_⟩ <;> decide

end MVoro
